import Mathlib

/-!
Shallow embedding of the spaced-repetition progress engine of this
repository (src/database/learning_models.py, src/database/learning_crud.py,
src/learning/routes.py).

Modelling conventions:
* Python `datetime` values are modelled as integers (days); `timedelta(days=n)`
  is addition of `n`.
* Python `float` values (the ease factor) are modelled as exact rationals `ℚ`;
  the constants 2.5, 2.8, 0.1, 1.3, 0.2 of the source become 5/2, 14/5, 1/10,
  13/10, 1/5.
* Python `int(x)` (truncation toward zero) is modelled by `pyInt`.
* The SQL table `user_word_progress` is modelled as a `List UserWordProgress`;
  a `SELECT ... WHERE` is a `List.filter`, `ORDER BY` a sort, `LIMIT` a
  `List.take`, `UPDATE ... WHERE` a `List.map` that rewrites matching rows.
* `Optional`/nullable columns are `Option`; Python truthiness of an optional
  enum or datetime argument coincides with `Option.isSome` (enum members and
  datetime objects are always truthy), which the definitions rely on.
-/

namespace LearningEngine

/-- `LearningStatus` enum of src/database/learning_models.py. -/
inductive LearningStatus
  | wantToLearn
  | learning
  | learned
  | mastered
  | review
deriving DecidableEq, Repr

/-- `DifficultyRating` enum of src/database/learning_models.py. -/
inductive DifficultyRating
  | veryEasy
  | easy
  | medium
  | hard
  | veryHard
deriving DecidableEq, Repr

/-- One row of the `user_word_progress` table
(class `UserWordProgress` of src/database/learning_models.py). -/
structure UserWordProgress where
  user_id : ℤ
  kazakh_word_id : ℤ
  status : LearningStatus
  times_seen : ℤ
  times_correct : ℤ
  times_incorrect : ℤ
  difficulty_rating : Option DifficultyRating
  added_at : ℤ
  first_learned_at : Option ℤ
  last_practiced_at : Option ℤ
  next_review_at : Option ℤ
  repetition_interval : ℤ
  ease_factor : ℚ
  user_notes : Option String
  created_at : ℤ
  updated_at : ℤ
deriving DecidableEq, Repr

/-- A freshly inserted row: the column defaults of `UserWordProgress`
(status argument as passed, counters 0, interval 1, ease 2.5, nullable
columns NULL, timestamp defaults `datetime.utcnow`). -/
def newProgress (user_id word_id : ℤ) (status : LearningStatus) (now : ℤ) :
    UserWordProgress :=
  { user_id := user_id
    kazakh_word_id := word_id
    status := status
    times_seen := 0
    times_correct := 0
    times_incorrect := 0
    difficulty_rating := none
    added_at := now
    first_learned_at := none
    last_practiced_at := none
    next_review_at := none
    repetition_interval := 1
    ease_factor := 5/2
    user_notes := none
    created_at := now
    updated_at := now }

/-- Python `int(q)` on a rational: truncation toward zero. -/
def pyInt (q : ℚ) : ℤ := if 0 ≤ q then ⌊q⌋ else ⌈q⌉

/-- The dictionary returned by `_calculate_spaced_repetition`
(src/database/learning_crud.py lines 166-187). -/
structure SpacedRepetitionUpdate where
  repetition_interval : ℤ
  ease_factor : ℚ
  next_review_at : ℤ
deriving DecidableEq, Repr

/-- `UserWordProgressCRUD._calculate_spaced_repetition(progress, was_correct)`
of src/database/learning_crud.py, with `datetime.utcnow()` passed in as
`now`.  Reads `repetition_interval` and `ease_factor` from the row as it was
before the update. -/
def calculate_spaced_repetition (progress : UserWordProgress)
    (was_correct : Bool) (now : ℤ) : SpacedRepetitionUpdate :=
  let new_interval : ℤ :=
    if was_correct then
      max 1 (pyInt ((progress.repetition_interval : ℚ) * progress.ease_factor))
    else 1
  let new_ease : ℚ :=
    if was_correct then min (14/5) (progress.ease_factor + 1/10)
    else max (13/10) (progress.ease_factor - 1/5)
  { repetition_interval := new_interval
    ease_factor := new_ease
    next_review_at := now + new_interval }

/-- The effect of `UserWordProgressCRUD.update_word_progress`
(src/database/learning_crud.py lines 107-164) on the single matched row
`progress`: the `update_data` dictionary is built from the original row and
then applied.  `status`, `was_correct`, `difficulty_rating`, `user_notes`
are the optional keyword arguments; `now` stands for `datetime.utcnow()`. -/
def applyUpdate (progress : UserWordProgress)
    (status : Option LearningStatus) (was_correct : Option Bool)
    (difficulty_rating : Option DifficultyRating)
    (user_notes : Option String) (now : ℤ) : UserWordProgress :=
  -- update_data = {"updated_at": datetime.utcnow()}
  let p := { progress with updated_at := now }
  -- if status: ...
  let p := match status with
    | none => p
    | some s =>
      let p := { p with status := s }
      if s = LearningStatus.learned ∧ progress.first_learned_at = none then
        { p with first_learned_at := some now }
      else p
  -- if was_correct is not None: counters and last_practiced_at
  let p := match was_correct with
    | none => p
    | some b =>
      let p := { p with times_seen := progress.times_seen + 1
                        last_practiced_at := some now }
      if b then { p with times_correct := progress.times_correct + 1 }
      else { p with times_incorrect := progress.times_incorrect + 1 }
  -- if difficulty_rating: ...
  let p := match difficulty_rating with
    | none => p
    | some d => { p with difficulty_rating := some d }
  -- if user_notes is not None: ...
  let p := match user_notes with
    | none => p
    | some s => { p with user_notes := some s }
  -- if was_correct is not None: merge _calculate_spaced_repetition(progress, b)
  match was_correct with
  | none => p
  | some b =>
    let sr := calculate_spaced_repetition progress b now
    { p with repetition_interval := sr.repetition_interval
             ease_factor := sr.ease_factor
             next_review_at := some sr.next_review_at }

/-- Row predicate of the `WHERE user_id == .. AND kazakh_word_id == ..`
clauses used by `get_user_word_progress`, `update_word_progress` and
`remove_word_from_learning`. -/
def matchesPair (u w : ℤ) (p : UserWordProgress) : Bool :=
  decide (p.user_id = u) && decide (p.kazakh_word_id = w)

/-- `UserWordProgressCRUD.get_user_word_progress` (src/database/learning_crud.py
lines 41-66): `SELECT ... WHERE user_id = u AND kazakh_word_id = w`, one row
or none.  The table is modelled as a list; `find?` returns the first match
(under the uniqueness constraint there is at most one). -/
def get_user_word_progress (db : List UserWordProgress) (u w : ℤ) :
    Option UserWordProgress :=
  db.find? (matchesPair u w)

/-- `UserWordProgressCRUD.add_word_to_learning_list` (src/database/learning_crud.py
lines 18-39): return the existing row if one exists, otherwise insert a fresh
row with the given status and return it.  The result is the returned record
together with the table after the call. -/
def add_word_to_learning_list (db : List UserWordProgress) (u w : ℤ)
    (status : LearningStatus) (now : ℤ) :
    UserWordProgress × List UserWordProgress :=
  match get_user_word_progress db u w with
  | some existing => (existing, db)
  | none =>
    let p := newProgress u w status now
    (p, db ++ [p])

/-- Errors surfaced by the route layer (src/learning/routes.py): the
404 "Word not found" raised before any record is created. -/
inductive RouteError
  | unknownWord
deriving DecidableEq, Repr

/-- The `POST /learning/words/{word_id}/add` handler
(src/learning/routes.py lines 50-76): verify the word exists in the
catalogue (`KazakhWordCRUD.get_by_id`), fail with 404 otherwise, then
delegate to `add_word_to_learning_list`.  The catalogue collaborator is
modelled as the list of known word ids. -/
def add_word_route (catalogue : List ℤ) (db : List UserWordProgress)
    (u w : ℤ) (status : LearningStatus) (now : ℤ) :
    Except RouteError UserWordProgress × List UserWordProgress :=
  if w ∈ catalogue then
    let r := add_word_to_learning_list db u w status now
    (Except.ok r.1, r.2)
  else
    (Except.error RouteError.unknownWord, db)

/-- `UserWordProgressCRUD.update_word_progress` at the table level
(src/database/learning_crud.py lines 107-164): find the row, return `none`
if absent, otherwise build `update_data` from the found row (`applyUpdate`)
and run `UPDATE ... WHERE user_id = u AND kazakh_word_id = w`.  Returns the
updated row and the table after the call. -/
def update_word_progress (db : List UserWordProgress) (u w : ℤ)
    (status : Option LearningStatus) (was_correct : Option Bool)
    (difficulty_rating : Option DifficultyRating)
    (user_notes : Option String) (now : ℤ) :
    Option UserWordProgress × List UserWordProgress :=
  match get_user_word_progress db u w with
  | none => (none, db)
  | some progress =>
    let p := applyUpdate progress status was_correct difficulty_rating
      user_notes now
    (some p, db.map fun r => if matchesPair u w r then p else r)

/-- Row predicate of the review query's `WHERE` clause
(src/database/learning_crud.py lines 203-213 and 584-594):
`user_id = u AND next_review_at <= now AND status IN (learning, learned,
review)`.  A SQL comparison with a NULL `next_review_at` is not true, so a
row whose `next_review_at` is unset never matches. -/
def dueForReview (u now : ℤ) (p : UserWordProgress) : Bool :=
  decide (p.user_id = u) &&
  (match p.next_review_at with
   | some t => decide (t ≤ now)
   | none => false) &&
  decide (p.status = LearningStatus.learning ∨
          p.status = LearningStatus.learned ∨
          p.status = LearningStatus.review)

/-- Sort key of `ORDER BY next_review_at` (ascending); the filtered rows all
have a set `next_review_at`, so the `none` branch is arbitrary. -/
def reviewKey (p : UserWordProgress) : ℤ :=
  match p.next_review_at with
  | some t => t
  | none => 0

/-- The `ORDER BY next_review_at` ordering on rows. -/
def reviewLE (a b : UserWordProgress) : Prop := reviewKey a ≤ reviewKey b

instance : DecidableRel reviewLE := fun a b =>
  inferInstanceAs (Decidable (reviewKey a ≤ reviewKey b))

instance : IsTotal UserWordProgress reviewLE :=
  ⟨fun a b => le_total (reviewKey a) (reviewKey b)⟩

instance : IsTrans UserWordProgress reviewLE :=
  ⟨fun _ _ _ hab hbc => le_trans hab hbc⟩

/-- `UserWordProgressCRUD.get_words_for_review` (src/database/learning_crud.py
lines 189-219): filter, `ORDER BY next_review_at`, `LIMIT limit`.  A pure
read: the table is not an output because the query does not change it. -/
def get_words_for_review (db : List UserWordProgress) (u now : ℤ)
    (limit : ℕ) : List UserWordProgress :=
  (List.insertionSort reviewLE (db.filter (dueForReview u now))).take limit

/-- `UserWordProgressCRUD.remove_word_from_learning`
(src/database/learning_crud.py lines 221-236): `DELETE ... WHERE` both key
columns match; returns whether any row was deleted, with the table after. -/
def remove_word_from_learning (db : List UserWordProgress) (u w : ℤ) :
    Bool × List UserWordProgress :=
  let remaining := db.filter fun r => ! matchesPair u w r
  (decide (remaining.length < db.length), remaining)

/-- Round half to even on integers represented inside `ℚ`: the rounding of
Python's `round` builtin. -/
def roundHalfEven (q : ℚ) : ℤ :=
  if q - ⌊q⌋ < 1/2 then ⌊q⌋
  else if 1/2 < q - ⌊q⌋ then ⌊q⌋ + 1
  else if Even ⌊q⌋ then ⌊q⌋ else ⌊q⌋ + 1

/-- Python `round(x, 1)`: round to one decimal place, half to even. -/
def pyRound1 (q : ℚ) : ℚ := (roundHalfEven (10 * q) : ℚ) / 10

/-- The rows belonging to one user: the `WHERE user_id = u` clause shared
by every aggregate of `get_user_learning_stats`. -/
def userRecords (db : List UserWordProgress) (u : ℤ) :
    List UserWordProgress :=
  db.filter fun p => decide (p.user_id = u)

/-- The fields of the dictionary returned by
`UserLearningStatsCRUD.get_user_learning_stats` that are derived from the
`user_word_progress` table.  (`sessions_this_week` and `current_streak` come
from the session and streak tables, collaborators outside the progress
record set, and are not modelled.) -/
structure LearningStats where
  total_words : ℕ
  accuracy_rate : ℚ
  words_due_review : ℕ
  total_correct : ℤ
  total_seen : ℤ
deriving DecidableEq, Repr

/-- `UserLearningStatsCRUD.get_user_learning_stats`
(src/database/learning_crud.py lines 524-607), restricted to the fields
derived from `user_word_progress`:
* `total_words`: `COUNT(*)` over the user's rows;
* `total_correct`, `total_seen`: `SUM(times_correct)`, `SUM(times_seen)`
  (a NULL sum over no rows and a zero sum both leave the rate at 0);
* `accuracy_rate`: 0, replaced by `total_correct / total_seen * 100` when
  `total_seen > 0`, then `round(accuracy_rate, 1)` in the returned dict;
* `words_due_review`: `COUNT(*)` under the same `WHERE` clause as the
  review query. -/
def get_user_learning_stats (db : List UserWordProgress) (u now : ℤ) :
    LearningStats :=
  let records := userRecords db u
  let total_words := records.length
  let total_correct : ℤ := (records.map fun p => p.times_correct).sum
  let total_seen : ℤ := (records.map fun p => p.times_seen).sum
  let accuracy_rate : ℚ :=
    if 0 < total_seen then ((total_correct : ℚ) / (total_seen : ℚ)) * 100
    else 0
  let words_due_review := (db.filter (dueForReview u now)).length
  { total_words := total_words
    accuracy_rate := pyRound1 accuracy_rate
    words_due_review := words_due_review
    total_correct := total_correct
    total_seen := total_seen }

/-- The optional arguments of one `update_word_progress` call, together
with the wall clock at the time of the call. -/
structure UpdateArgs where
  status : Option LearningStatus
  was_correct : Option Bool
  difficulty_rating : Option DifficultyRating
  user_notes : Option String
  now : ℤ
deriving DecidableEq, Repr

/-- One `update_word_progress` call applied to a single row. -/
def applyArgs (p : UserWordProgress) (a : UpdateArgs) : UserWordProgress :=
  applyUpdate p a.status a.was_correct a.difficulty_rating a.user_notes a.now

/-- A sequence of `update_word_progress` calls applied to a single row. -/
def runUpdates (p : UserWordProgress) (ops : List UpdateArgs) :
    UserWordProgress :=
  ops.foldl applyArgs p

/-- A pure `RecordAnswer` call: `update_word_progress` with only
`was_correct` supplied. -/
def answerArgs (b : Bool) (now : ℤ) : UpdateArgs :=
  { status := none, was_correct := some b, difficulty_rating := none
    user_notes := none, now := now }

/-- A sequence of pure `RecordAnswer` calls, each with its own wall clock. -/
def runAnswers (p : UserWordProgress) (answers : List (Bool × ℤ)) :
    UserWordProgress :=
  answers.foldl (fun q a => applyArgs q (answerArgs a.1 a.2)) p

/-! ### Helper lemmas -/

/-- Python truncation and mathematical floor agree under the `max 1` guard:
they coincide on nonnegative arguments, and both are clamped to 1 on
negative ones. -/
lemma max_one_pyInt (q : ℚ) : max 1 (pyInt q) = max 1 ⌊q⌋ := by
  unfold pyInt
  split
  · rfl
  · rename_i h
    have hq : q ≤ 0 := le_of_lt (lt_of_not_ge h)
    have h1 : ⌈q⌉ ≤ 0 := Int.ceil_le.mpr (by exact_mod_cast hq)
    have h2 : ⌊q⌋ ≤ ⌈q⌉ := Int.floor_le_ceil q
    omega

lemma applyUpdate_answer_interval (p : UserWordProgress)
    (st : Option LearningStatus) (dr : Option DifficultyRating)
    (notes : Option String) (b : Bool) (now : ℤ) :
    (applyUpdate p st (some b) dr notes now).repetition_interval =
      (calculate_spaced_repetition p b now).repetition_interval := rfl

lemma applyUpdate_answer_ease (p : UserWordProgress)
    (st : Option LearningStatus) (dr : Option DifficultyRating)
    (notes : Option String) (b : Bool) (now : ℤ) :
    (applyUpdate p st (some b) dr notes now).ease_factor =
      (calculate_spaced_repetition p b now).ease_factor := rfl

lemma applyUpdate_answer_next_review (p : UserWordProgress)
    (st : Option LearningStatus) (dr : Option DifficultyRating)
    (notes : Option String) (b : Bool) (now : ℤ) :
    (applyUpdate p st (some b) dr notes now).next_review_at =
      some (calculate_spaced_repetition p b now).next_review_at := rfl

lemma calc_sr_interval (p : UserWordProgress) (b : Bool) (now : ℤ) :
    (calculate_spaced_repetition p b now).repetition_interval =
      if b then max 1 ⌊(p.repetition_interval : ℚ) * p.ease_factor⌋ else 1 := by
  cases b <;> simp [calculate_spaced_repetition, max_one_pyInt]

lemma calc_sr_ease (p : UserWordProgress) (b : Bool) (now : ℤ) :
    (calculate_spaced_repetition p b now).ease_factor =
      if b then min (14/5) (p.ease_factor + 1/10)
      else max (13/10) (p.ease_factor - 1/5) := by
  cases b <;> simp [calculate_spaced_repetition]

lemma calc_sr_next (p : UserWordProgress) (b : Bool) (now : ℤ) :
    (calculate_spaced_repetition p b now).next_review_at =
      now + (calculate_spaced_repetition p b now).repetition_interval := rfl

/-! ### C1 -/

/-- **C1.** A `RecordAnswer` (`update_word_progress` with `was_correct` not
`None`) updates the scheduling fields exactly by the spec's recurrence:
correct → interval `max 1 ⌊i·e⌋` and ease `min 2.8 (e + 0.1)`; incorrect →
interval 1 and ease `max 1.3 (e - 0.2)`; in both cases
`next_review_at = now + new interval` days.  On a fresh record
(interval 1, ease 2.5) a correct answer yields interval 2, ease 2.6 and a
review 2 days out, and a following incorrect answer yields interval 1,
ease 2.4 and a review 1 day out. -/
theorem record_answer_updates_schedule (p : UserWordProgress)
    (st : Option LearningStatus) (dr : Option DifficultyRating)
    (notes : Option String) (b : Bool) (now : ℤ) :
    ((applyUpdate p st (some b) dr notes now).repetition_interval =
      if b then max 1 ⌊(p.repetition_interval : ℚ) * p.ease_factor⌋ else 1) ∧
    ((applyUpdate p st (some b) dr notes now).ease_factor =
      if b then min (14/5) (p.ease_factor + 1/10)
      else max (13/10) (p.ease_factor - 1/5)) ∧
    ((applyUpdate p st (some b) dr notes now).next_review_at =
      some (now + (applyUpdate p st (some b) dr notes now).repetition_interval)) ∧
    (∀ u w : ℤ, ∀ s : LearningStatus, ∀ n0 t1 t2 : ℤ,
      (applyUpdate (newProgress u w s n0) none (some true) none none
        t1).repetition_interval = 2 ∧
      (applyUpdate (newProgress u w s n0) none (some true) none none
        t1).ease_factor = 13/5 ∧
      (applyUpdate (newProgress u w s n0) none (some true) none none
        t1).next_review_at = some (t1 + 2) ∧
      (applyUpdate (applyUpdate (newProgress u w s n0) none (some true) none
        none t1) none (some false) none none t2).repetition_interval = 1 ∧
      (applyUpdate (applyUpdate (newProgress u w s n0) none (some true) none
        none t1) none (some false) none none t2).ease_factor = 12/5 ∧
      (applyUpdate (applyUpdate (newProgress u w s n0) none (some true) none
        none t1) none (some false) none none t2).next_review_at =
        some (t2 + 1)) := by
  refine ⟨?_, ?_, ?_, ?_⟩
  · rw [applyUpdate_answer_interval, calc_sr_interval]
  · rw [applyUpdate_answer_ease, calc_sr_ease]
  · rw [applyUpdate_answer_next_review, calc_sr_next,
        applyUpdate_answer_interval]
  · intro u w s n0 t1 t2
    refine ⟨?_, ?_, ?_, ?_, ?_, ?_⟩ <;>
      norm_num [applyUpdate_answer_interval, applyUpdate_answer_ease,
        applyUpdate_answer_next_review, calc_sr_interval, calc_sr_ease,
        calc_sr_next, newProgress, Int.floor_eq_iff]

/-! ### C2 -/

/-- The scheduling invariant: ease within `[1.3, 2.8]`, interval at least 1. -/
def scheduleInv (p : UserWordProgress) : Prop :=
  13/10 ≤ p.ease_factor ∧ p.ease_factor ≤ 14/5 ∧ 1 ≤ p.repetition_interval

/-- One answer preserves the ease bounds and re-establishes the interval
floor (the interval bound needs no hypothesis: both branches clamp it). -/
lemma scheduleInv_step (p : UserWordProgress) (b : Bool) (t : ℤ)
    (h1 : 13/10 ≤ p.ease_factor) (h2 : p.ease_factor ≤ 14/5) :
    scheduleInv (applyArgs p (answerArgs b t)) := by
  have he : (applyArgs p (answerArgs b t)).ease_factor =
      (calculate_spaced_repetition p b t).ease_factor := rfl
  have hi : (applyArgs p (answerArgs b t)).repetition_interval =
      (calculate_spaced_repetition p b t).repetition_interval := rfl
  refine ⟨?_, ?_, ?_⟩ <;>
    simp only [scheduleInv, he, hi, calc_sr_ease, calc_sr_interval] <;>
    cases b <;> simp only [if_true, if_false, Bool.false_eq_true, cond]
  · exact le_max_left _ _
  · exact le_min (by norm_num) (by linarith)
  · exact max_le (by norm_num) (by linarith)
  · exact min_le_left _ _
  · exact le_refl 1
  · exact le_max_left _ _

lemma scheduleInv_runAnswers (answers : List (Bool × ℤ))
    (p : UserWordProgress) (h : scheduleInv p) :
    scheduleInv (runAnswers p answers) := by
  induction answers generalizing p with
  | nil => exact h
  | cons a rest ih =>
    exact ih _ (scheduleInv_step p a.1 a.2 h.1 h.2.1)

/-- **C2.** Starting from the column defaults (interval 1, ease 2.5), after
any sequence of `RecordAnswer` calls the ease factor stays in `[1.3, 2.8]`
and the interval stays `≥ 1`; an incorrect answer always sets the interval
to exactly 1; and 10 consecutive correct answers from ease 2.5 never push
the ease factor above 2.8. -/
theorem ease_and_interval_invariant (u w : ℤ) (st : LearningStatus)
    (n0 : ℤ) (answers : List (Bool × ℤ)) :
    (13/10 ≤ (runAnswers (newProgress u w st n0) answers).ease_factor ∧
     (runAnswers (newProgress u w st n0) answers).ease_factor ≤ 14/5 ∧
     1 ≤ (runAnswers (newProgress u w st n0) answers).repetition_interval) ∧
    (∀ p : UserWordProgress, ∀ t : ℤ,
      (applyArgs p (answerArgs false t)).repetition_interval = 1) ∧
    (∀ t : ℤ,
      (runAnswers (newProgress u w st n0)
        (List.replicate 10 (true, t))).ease_factor ≤ 14/5) := by
  have hbase : scheduleInv (newProgress u w st n0) := by
    refine ⟨?_, ?_, ?_⟩ <;> norm_num [newProgress]
  refine ⟨scheduleInv_runAnswers answers _ hbase, ?_, ?_⟩
  · intro p t
    have hi : (applyArgs p (answerArgs false t)).repetition_interval =
        (calculate_spaced_repetition p false t).repetition_interval := rfl
    rw [hi, calc_sr_interval]
    simp
  · intro t
    exact (scheduleInv_runAnswers _ _ hbase).2.1

/-! ### Frame and counter lemmas -/

/-- An update that carries no answer leaves the scheduling fields, the
counters and `last_practiced_at` untouched. -/
lemma applyUpdate_no_answer_frame (p : UserWordProgress)
    (st : Option LearningStatus) (dr : Option DifficultyRating)
    (notes : Option String) (now : ℤ) :
    (applyUpdate p st none dr notes now).repetition_interval =
        p.repetition_interval ∧
    (applyUpdate p st none dr notes now).ease_factor = p.ease_factor ∧
    (applyUpdate p st none dr notes now).next_review_at = p.next_review_at ∧
    (applyUpdate p st none dr notes now).times_seen = p.times_seen ∧
    (applyUpdate p st none dr notes now).times_correct = p.times_correct ∧
    (applyUpdate p st none dr notes now).times_incorrect = p.times_incorrect ∧
    (applyUpdate p st none dr notes now).last_practiced_at =
        p.last_practiced_at := by
  cases st <;> cases dr <;> cases notes <;> simp only [applyUpdate] <;>
    (try split_ifs) <;> simp

/-- The counter fields after one `update_word_progress` call, for any
combination of arguments. -/
lemma applyUpdate_counters (p : UserWordProgress)
    (st : Option LearningStatus) (wc : Option Bool)
    (dr : Option DifficultyRating) (notes : Option String) (now : ℤ) :
    (applyUpdate p st wc dr notes now).times_seen =
      (if wc.isSome then p.times_seen + 1 else p.times_seen) ∧
    (applyUpdate p st wc dr notes now).times_correct =
      (if wc = some true then p.times_correct + 1 else p.times_correct) ∧
    (applyUpdate p st wc dr notes now).times_incorrect =
      (if wc = some false then p.times_incorrect + 1
       else p.times_incorrect) := by
  cases wc with
  | none =>
    have h := applyUpdate_no_answer_frame p st dr notes now
    simp only [Option.isSome_none, if_false, Bool.false_eq_true,
      reduceCtorEq, if_neg, ite_false]
    exact ⟨h.2.2.2.1, by simp [h.2.2.2.2.1], by simp [h.2.2.2.2.2.1]⟩
  | some b =>
    cases b <;> cases st <;> cases dr <;> cases notes <;>
      refine ⟨?_, ?_, ?_⟩ <;> simp only [applyUpdate] <;>
      (try split_ifs) <;> simp_all

/-! ### C4 -/

/-- **C4.** From the default counters (all 0), after every sequence of
`update_word_progress` calls (answers included) `times_seen` equals
`times_correct + times_incorrect`, and each call leaves every counter
greater than or equal to its previous value. -/
theorem counter_invariant (u w : ℤ) (st : LearningStatus) (n0 : ℤ)
    (ops : List UpdateArgs) :
    ((runUpdates (newProgress u w st n0) ops).times_seen =
      (runUpdates (newProgress u w st n0) ops).times_correct +
      (runUpdates (newProgress u w st n0) ops).times_incorrect) ∧
    (∀ p : UserWordProgress, ∀ a : UpdateArgs,
      p.times_seen ≤ (applyArgs p a).times_seen ∧
      p.times_correct ≤ (applyArgs p a).times_correct ∧
      p.times_incorrect ≤ (applyArgs p a).times_incorrect) := by
  have hstep : ∀ (p : UserWordProgress) (a : UpdateArgs),
      p.times_seen = p.times_correct + p.times_incorrect →
      (applyArgs p a).times_seen =
        (applyArgs p a).times_correct + (applyArgs p a).times_incorrect := by
    intro p a h
    obtain ⟨h1, h2, h3⟩ := applyUpdate_counters p a.status a.was_correct
      a.difficulty_rating a.user_notes a.now
    rcases hwc : a.was_correct with _ | b
    · simp only [applyArgs, hwc] at h1 h2 h3 ⊢
      simp_all
    · cases b <;> simp only [applyArgs, hwc] at h1 h2 h3 ⊢ <;>
        simp_all <;> omega
  constructor
  · have : ∀ (l : List UpdateArgs) (p : UserWordProgress),
        p.times_seen = p.times_correct + p.times_incorrect →
        (runUpdates p l).times_seen =
          (runUpdates p l).times_correct +
          (runUpdates p l).times_incorrect := by
      intro l
      induction l with
      | nil => intro p h; exact h
      | cons a rest ih =>
        intro p h
        exact ih _ (hstep p a h)
    exact this ops _ (by norm_num [newProgress])
  · intro p a
    obtain ⟨h1, h2, h3⟩ := applyUpdate_counters p a.status a.was_correct
      a.difficulty_rating a.user_notes a.now
    refine ⟨?_, ?_, ?_⟩ <;> simp only [applyArgs] <;>
      [rw [h1]; rw [h2]; rw [h3]] <;> split <;> omega

/-! ### C5 -/

/-- **C5.** `first_learned_at` is stamped exactly on the first status
update into `Learned` while it is unset: (i) once it holds a value, no
later `update_word_progress` call of any shape changes it; (ii) a status
update to `Learned` while it is unset stamps the current time; (iii) a
status update to any other status leaves it unset. -/
theorem first_learned_at_stability :
    (∀ (p : UserWordProgress) (a : UpdateArgs) (t : ℤ),
      p.first_learned_at = some t → (applyArgs p a).first_learned_at = some t) ∧
    (∀ (p : UserWordProgress) (wc : Option Bool)
        (dr : Option DifficultyRating) (notes : Option String) (now : ℤ),
      p.first_learned_at = none →
      (applyUpdate p (some LearningStatus.learned) wc dr notes
        now).first_learned_at = some now) ∧
    (∀ (p : UserWordProgress) (s : LearningStatus) (wc : Option Bool)
        (dr : Option DifficultyRating) (notes : Option String) (now : ℤ),
      s ≠ LearningStatus.learned → p.first_learned_at = none →
      (applyUpdate p (some s) wc dr notes now).first_learned_at = none) := by
  refine ⟨?_, ?_, ?_⟩
  · intro p a t h
    obtain ⟨st, wc, dr, notes, n⟩ := a
    cases st <;> cases wc <;> cases dr <;> cases notes <;>
      simp only [applyArgs, applyUpdate] <;> (try split_ifs) <;> simp_all
  · intro p wc dr notes now h
    cases wc <;> cases dr <;> cases notes <;>
      simp only [applyUpdate] <;> (try split_ifs) <;> simp_all
  · intro p s wc dr notes now hs h
    cases wc <;> cases dr <;> cases notes <;>
      simp only [applyUpdate] <;> (try split_ifs) <;> simp_all

/-- Witness for C5 on concrete data: a record for which `first_learned_at`
is unset gets it stamped by a status update to `Learned`, and a further
status update back into `Learned` leaves the original stamp in place. -/
theorem first_learned_at_stability_witness :
    (applyArgs (applyUpdate (newProgress 3 4 LearningStatus.wantToLearn 0)
        (some LearningStatus.learned) none none none 7)
      { status := some LearningStatus.learned, was_correct := none
        difficulty_rating := none, user_notes := none
        now := 9 }).first_learned_at = some 7 :=
  first_learned_at_stability.1 _ _ 7
    (first_learned_at_stability.2.1
      (newProgress 3 4 LearningStatus.wantToLearn 0) none none none 7 rfl)

/-! ### C7 -/

/-- A placeholder note text for concrete counterexamples. -/
def demoNote : String := ""

/-- **C7, counterexample.** The claim that `SetNotes` has no side effects
on fields other than its own fails on the code: every
`update_word_progress` call also refreshes the `updated_at` audit
timestamp, so a notes-only update at time 5 changes `updated_at` of a
record last updated at time 0. -/
theorem set_notes_changes_updated_at :
    (applyUpdate (newProgress 1 2 LearningStatus.wantToLearn 0) none none
      none (some demoNote) 5).updated_at ≠
      (newProgress 1 2 LearningStatus.wantToLearn 0).updated_at := by
  decide

/-- **C7, amended.** An `update_word_progress` call with `was_correct =
None` (pure status change, notes edit, or difficulty-rating edit) leaves
`repetition_interval`, `ease_factor`, `next_review_at`, `times_seen`,
`times_correct`, `times_incorrect` (and `last_practiced_at`) unchanged;
a notes-only update changes exactly `user_notes` plus the `updated_at`
audit timestamp, and a rating-only update changes exactly
`difficulty_rating` plus `updated_at`. -/
theorem no_answer_update_frame :
    (∀ (p : UserWordProgress) (st : Option LearningStatus)
        (dr : Option DifficultyRating) (notes : Option String) (now : ℤ),
      (applyUpdate p st none dr notes now).repetition_interval =
          p.repetition_interval ∧
      (applyUpdate p st none dr notes now).ease_factor = p.ease_factor ∧
      (applyUpdate p st none dr notes now).next_review_at =
          p.next_review_at ∧
      (applyUpdate p st none dr notes now).times_seen = p.times_seen ∧
      (applyUpdate p st none dr notes now).times_correct =
          p.times_correct ∧
      (applyUpdate p st none dr notes now).times_incorrect =
          p.times_incorrect ∧
      (applyUpdate p st none dr notes now).last_practiced_at =
          p.last_practiced_at) ∧
    (∀ (p : UserWordProgress) (s : String) (now : ℤ),
      applyUpdate p none none none (some s) now =
        { p with user_notes := some s, updated_at := now }) ∧
    (∀ (p : UserWordProgress) (d : DifficultyRating) (now : ℤ),
      applyUpdate p none none (some d) none now =
        { p with difficulty_rating := some d, updated_at := now }) :=
  ⟨applyUpdate_no_answer_frame, fun _ _ _ => rfl, fun _ _ _ => rfl⟩

/-! ### C6 -/

/-- After `add_word_to_learning_list`, looking the pair up finds exactly
the record the call returned. -/
lemma get_after_add (db : List UserWordProgress) (u w : ℤ)
    (s : LearningStatus) (n : ℤ) :
    get_user_word_progress (add_word_to_learning_list db u w s n).2 u w =
      some (add_word_to_learning_list db u w s n).1 := by
  unfold add_word_to_learning_list
  cases h : get_user_word_progress db u w with
  | some e => simp [h]
  | none =>
    unfold get_user_word_progress at h ⊢
    simp only [h, List.find?_append, Option.none_or]
    simp [matchesPair, newProgress]

/-- **C6.** `AddToList` is idempotent-create: a second call for the same
pair (with any status argument) returns the very record the first call
returned and leaves the table untouched; and the call preserves the
at-most-one-record-per-pair invariant. -/
theorem add_to_list_idempotent (db : List UserWordProgress) (u w : ℤ)
    (s1 s2 : LearningStatus) (n1 n2 : ℤ) :
    ((add_word_to_learning_list
        (add_word_to_learning_list db u w s1 n1).2 u w s2 n2).1 =
      (add_word_to_learning_list db u w s1 n1).1 ∧
     (add_word_to_learning_list
        (add_word_to_learning_list db u w s1 n1).2 u w s2 n2).2 =
      (add_word_to_learning_list db u w s1 n1).2) ∧
    ((∀ u' w' : ℤ, (db.filter (matchesPair u' w')).length ≤ 1) →
      ∀ u' w' : ℤ,
        (((add_word_to_learning_list db u w s1 n1).2.filter
          (matchesPair u' w')).length ≤ 1)) := by
  constructor
  · have h := get_after_add db u w s1 n1
    constructor <;>
      · conv_lhs => rw [add_word_to_learning_list]
        rw [h]
  · intro hU u' w'
    unfold add_word_to_learning_list
    cases h : get_user_word_progress db u w with
    | some e => simpa using hU u' w'
    | none =>
      simp only [List.filter_append, List.length_append]
      by_cases hp : matchesPair u' w' (newProgress u w s1 n1) = true
      · have hfilter : db.filter (matchesPair u' w') = [] := by
          rw [List.filter_eq_nil_iff]
          intro a ha
          have hnone := List.find?_eq_none.mp h a ha
          have huw : u = u' ∧ w = w' := by
            simpa [matchesPair, newProgress] using hp
          rw [← huw.1, ← huw.2]
          exact hnone
        rw [hfilter]
        simpa using List.length_filter_le _ _
      · have hone : List.filter (matchesPair u' w')
            [newProgress u w s1 n1] = [] := by
          simp [List.filter, hp]
        rw [hone]
        simpa using hU u' w'

/-- Witness for C6 on concrete data: starting from the empty table, after
one add the uniqueness bound holds for the added pair. -/
theorem add_to_list_idempotent_witness :
    ((add_word_to_learning_list ([] : List UserWordProgress) 1 2
        LearningStatus.wantToLearn 0).2.filter (matchesPair 1 2)).length ≤ 1 :=
  (add_to_list_idempotent [] 1 2 LearningStatus.wantToLearn
    LearningStatus.learning 0 3).2 (fun _ _ => by simp) 1 2

/-! ### C8 -/

/-- **C8.** Adding a word unknown to the catalogue fails with the
unknown-word error and creates nothing: the table is returned unchanged,
and if no record existed for the pair before the call, none exists after. -/
theorem unknown_word_add_fails (catalogue : List ℤ)
    (db : List UserWordProgress) (u w : ℤ) (s : LearningStatus) (now : ℤ)
    (h : w ∉ catalogue) :
    add_word_route catalogue db u w s now =
      (Except.error RouteError.unknownWord, db) ∧
    (get_user_word_progress db u w = none →
      get_user_word_progress (add_word_route catalogue db u w s now).2 u w =
        none) := by
  constructor
  · simp [add_word_route, h]
  · intro h0
    simpa [add_word_route, h] using h0

/-- Witness for C8 on concrete data: word 999 is not in the catalogue
`[10, 20]`, the call errors, and the empty table stays empty. -/
theorem unknown_word_add_fails_witness :
    add_word_route [10, 20] ([] : List UserWordProgress) 1 999
        LearningStatus.wantToLearn 0 =
      (Except.error RouteError.unknownWord, []) ∧
    get_user_word_progress
      (add_word_route [10, 20] ([] : List UserWordProgress) 1 999
        LearningStatus.wantToLearn 0).2 1 999 = none :=
  ⟨(unknown_word_add_fails [10, 20] [] 1 999 LearningStatus.wantToLearn 0
      (by decide)).1,
   (unknown_word_add_fails [10, 20] [] 1 999 LearningStatus.wantToLearn 0
      (by decide)).2 rfl⟩

/-! ### C3 -/

/-- Unfolding of the review query's row predicate. -/
lemma dueForReview_eq_true (u now : ℤ) (p : UserWordProgress) :
    dueForReview u now p = true ↔
      p.user_id = u ∧ (∃ t, p.next_review_at = some t ∧ t ≤ now) ∧
      (p.status = LearningStatus.learning ∨
       p.status = LearningStatus.learned ∨
       p.status = LearningStatus.review) := by
  unfold dueForReview
  cases h : p.next_review_at <;> simp [h, and_assoc]

/-- Every row the review query returns satisfies its `WHERE` clause. -/
lemma mem_review_due (db : List UserWordProgress) (u now : ℤ) (limit : ℕ)
    (r : UserWordProgress) (hr : r ∈ get_words_for_review db u now limit) :
    r ∈ db ∧ dueForReview u now r = true := by
  unfold get_words_for_review at hr
  have h1 := List.take_subset _ _ hr
  have h2 := (List.perm_insertionSort reviewLE _).mem_iff.mp h1
  exact List.mem_filter.mp h2

/-- **C3.** `get_words_for_review` returns exactly the user's records with
a due `next_review_at` and an active status: every returned row is a row of
the table (the query fabricates and mutates nothing) belonging to the user,
due, and in `{Learning, Learned, Review}` — in particular never `Mastered`
or `WantToLearn`; at most `limit` rows are returned, in ascending
`next_review_at` order; and whenever at most `limit` rows match, every
matching row of the table is returned. -/
theorem words_due_for_review_spec (db : List UserWordProgress) (u now : ℤ)
    (limit : ℕ) :
    (∀ r ∈ get_words_for_review db u now limit,
      r ∈ db ∧ r.user_id = u ∧
      (∃ t, r.next_review_at = some t ∧ t ≤ now) ∧
      (r.status = LearningStatus.learning ∨
       r.status = LearningStatus.learned ∨
       r.status = LearningStatus.review) ∧
      r.status ≠ LearningStatus.mastered ∧
      r.status ≠ LearningStatus.wantToLearn) ∧
    (get_words_for_review db u now limit).length ≤ limit ∧
    List.Sorted reviewLE (get_words_for_review db u now limit) ∧
    ((db.filter (dueForReview u now)).length ≤ limit →
      ∀ r ∈ db, dueForReview u now r = true →
        r ∈ get_words_for_review db u now limit) := by
  refine ⟨?_, ?_, ?_, ?_⟩
  · intro r hr
    obtain ⟨hmem, hdue⟩ := mem_review_due db u now limit r hr
    obtain ⟨hu, ht, hs⟩ := (dueForReview_eq_true u now r).mp hdue
    refine ⟨hmem, hu, ht, hs, ?_, ?_⟩ <;> rcases hs with h | h | h <;>
      simp [h]
  · unfold get_words_for_review
    rw [List.length_take]
    exact min_le_left _ _
  · have hs : List.Pairwise reviewLE
        (List.insertionSort reviewLE (db.filter (dueForReview u now))) :=
      List.sorted_insertionSort reviewLE _
    exact hs.sublist (List.take_sublist _ _)
  · intro hlen r hr hdue
    unfold get_words_for_review
    rw [List.take_of_length_le
      (by rw [(List.perm_insertionSort reviewLE _).length_eq]; exact hlen)]
    exact (List.perm_insertionSort reviewLE _).mem_iff.mpr
      (List.mem_filter.mpr ⟨hr, hdue⟩)

/-- A concrete overdue record in active status, for witnesses. -/
def demoDue : UserWordProgress :=
  { newProgress 1 5 LearningStatus.learning 0 with
    next_review_at := some (-3) }

/-- Witness for C3 on concrete data: a due `Learning` record of user 1 is
returned by the review query on the singleton table holding it. -/
theorem words_due_for_review_spec_witness :
    demoDue ∈ get_words_for_review [demoDue] 1 0 5 :=
  (words_due_for_review_spec [demoDue] 1 0 5).2.2.2 (by decide) demoDue
    (List.mem_singleton.mpr rfl) (by decide)

/-! ### C9 -/

/-- A concrete record with 3 answers recorded, 1 of them correct. -/
def demoAnswered : UserWordProgress :=
  { newProgress 1 7 LearningStatus.learning 0 with
    times_seen := 3, times_correct := 1, times_incorrect := 2 }

/-- The review-count filter only looks at the user's rows, so the whole
statistics dictionary is a function of `userRecords db u` alone. -/
lemma filter_due_userRecords (db : List UserWordProgress) (u now : ℤ) :
    db.filter (dueForReview u now) =
      (userRecords db u).filter (dueForReview u now) := by
  unfold userRecords
  rw [List.filter_filter]
  exact (List.filter_congr fun a _ => by
    by_cases hu : a.user_id = u <;> simp [dueForReview, hu]).symm

/-- **C9, counterexample.** The returned `accuracy_rate` is *not* exactly
`total_correct / total_seen * 100`: for one record with 1 correct answer
out of 3 seen the exact value is `100/3` but the code returns
`round(100/3, 1) = 33.3`. -/
theorem accuracy_rate_not_exact :
    (get_user_learning_stats [demoAnswered] 1 0).accuracy_rate ≠
      ((get_user_learning_stats [demoAnswered] 1 0).total_correct : ℚ) /
        ((get_user_learning_stats [demoAnswered] 1 0).total_seen : ℚ) *
        100 := by
  have hfloor : ⌊(1000 : ℚ)/3⌋ = 333 := by
    rw [Int.floor_eq_iff]
    norm_num
  have h1 : (get_user_learning_stats [demoAnswered] 1 0).total_correct = 1 := rfl
  have h2 : (get_user_learning_stats [demoAnswered] 1 0).total_seen = 3 := rfl
  have h3 : (get_user_learning_stats [demoAnswered] 1 0).accuracy_rate =
      pyRound1 (if (0:ℤ) < 3 then ((1:ℤ) : ℚ) / ((3:ℤ) : ℚ) * 100 else 0) :=
    rfl
  rw [if_pos (show (0:ℤ) < 3 by decide)] at h3
  rw [h1, h2, h3]
  have h4 : pyRound1 (((1:ℤ) : ℚ) / ((3:ℤ) : ℚ) * 100) = 333/10 := by
    have harg : (10 : ℚ) * (((1:ℤ) : ℚ) / ((3:ℤ) : ℚ) * 100) = 1000/3 := by
      norm_num
    rw [pyRound1, harg, roundHalfEven, hfloor]
    norm_num
  rw [h4]
  norm_num

/-- **C9, amended.** `UserStats` is derived purely by aggregation over the
user's record set: `total_correct` and `total_seen` are the sums of the
per-record counters; the returned `accuracy_rate` equals
`total_correct / total_seen * 100` rounded to one decimal place when
`total_seen > 0`, and 0 when `total_seen = 0`; and two tables with the
same rows for the user yield identical statistics (no independent state). -/
theorem accuracy_rate_spec (db : List UserWordProgress) (u now : ℤ) :
    ((get_user_learning_stats db u now).total_seen =
        ((userRecords db u).map fun p => p.times_seen).sum ∧
     (get_user_learning_stats db u now).total_correct =
        ((userRecords db u).map fun p => p.times_correct).sum ∧
     (get_user_learning_stats db u now).total_words =
        (userRecords db u).length) ∧
    (0 < (get_user_learning_stats db u now).total_seen →
      (get_user_learning_stats db u now).accuracy_rate =
        pyRound1 (((get_user_learning_stats db u now).total_correct : ℚ) /
          ((get_user_learning_stats db u now).total_seen : ℚ) * 100)) ∧
    ((get_user_learning_stats db u now).total_seen = 0 →
      (get_user_learning_stats db u now).accuracy_rate = 0) ∧
    (∀ db2 : List UserWordProgress, userRecords db u = userRecords db2 u →
      get_user_learning_stats db u now =
        get_user_learning_stats db2 u now) := by
  refine ⟨⟨rfl, rfl, rfl⟩, ?_, ?_, ?_⟩
  · intro hpos
    simp only [get_user_learning_stats] at hpos ⊢
    rw [if_pos hpos]
  · intro hzero
    simp only [get_user_learning_stats] at hzero ⊢
    rw [hzero]
    norm_num [pyRound1, roundHalfEven]
  · intro db2 h
    simp only [get_user_learning_stats]
    rw [filter_due_userRecords db u now, filter_due_userRecords db2 u now, h]

/-- Witness for C9 (amended) on concrete data: the empty table gives rate
0, and the one-record table gives the rounded ratio. -/
theorem accuracy_rate_spec_witness :
    (get_user_learning_stats ([] : List UserWordProgress) 1 0).accuracy_rate
        = 0 ∧
    (get_user_learning_stats [demoAnswered] 1 0).accuracy_rate =
      pyRound1 (((get_user_learning_stats [demoAnswered] 1 0).total_correct :
          ℚ) /
        ((get_user_learning_stats [demoAnswered] 1 0).total_seen : ℚ) *
        100) :=
  ⟨(accuracy_rate_spec [] 1 0).2.2.1 rfl,
   (accuracy_rate_spec [demoAnswered] 1 0).2.1 (by decide)⟩

/-! ### C10 -/

/-- A concrete `Learning` record that has never been answered:
`next_review_at` is unset. -/
def demoNull : UserWordProgress := newProgress 2 6 LearningStatus.learning 0

/-- **C10.** A record whose `next_review_at` is unset is invisible to
review: (i) it is never returned by `get_words_for_review`; (ii) it is
never counted in the `words_due_review` statistic; (iii) an update that
carries no answer keeps `next_review_at` unset (it stays NULL until the
first recorded answer); (iv) in particular a word added directly with
status `Learning` is not due for review. -/
theorem null_next_review_never_due :
    (∀ (db : List UserWordProgress) (u now : ℤ) (limit : ℕ)
        (r : UserWordProgress), r.next_review_at = none →
      r ∉ get_words_for_review db u now limit) ∧
    (∀ (db : List UserWordProgress) (u now : ℤ) (r : UserWordProgress),
      r.next_review_at = none →
      (get_user_learning_stats (r :: db) u now).words_due_review =
        (get_user_learning_stats db u now).words_due_review) ∧
    (∀ (p : UserWordProgress) (st : Option LearningStatus)
        (dr : Option DifficultyRating) (notes : Option String) (t : ℤ),
      p.next_review_at = none →
      (applyUpdate p st none dr notes t).next_review_at = none) ∧
    (∀ (db : List UserWordProgress) (u w n0 now : ℤ) (limit : ℕ),
      newProgress u w LearningStatus.learning n0 ∉
        get_words_for_review db u now limit) := by
  have hnot : ∀ (u now : ℤ) (r : UserWordProgress),
      r.next_review_at = none → dueForReview u now r = false := by
    intro u now r h
    simp [dueForReview, h]
  have hmain : ∀ (db : List UserWordProgress) (u now : ℤ) (limit : ℕ)
      (r : UserWordProgress), r.next_review_at = none →
      r ∉ get_words_for_review db u now limit := by
    intro db u now limit r h hmem
    have hdue := (mem_review_due db u now limit r hmem).2
    rw [hnot u now r h] at hdue
    exact Bool.false_ne_true hdue
  refine ⟨hmain, ?_, ?_, ?_⟩
  · intro db u now r h
    simp only [get_user_learning_stats, List.filter_cons, hnot u now r h,
      Bool.false_eq_true, if_false, userRecords]
  · intro p st dr notes t h
    rw [(applyUpdate_no_answer_frame p st dr notes t).2.2.1]
    exact h
  · intro db u w n0 now limit
    exact hmain db u now limit _ rfl

/-- Witness for C10 on concrete data: an unanswered `Learning` record is
not returned by the review query over the singleton table holding it, and
does not raise the due-count. -/
theorem null_next_review_never_due_witness :
    demoNull ∉ get_words_for_review [demoNull] 2 0 5 ∧
    (get_user_learning_stats [demoNull] 2 0).words_due_review =
      (get_user_learning_stats ([] : List UserWordProgress) 2
        0).words_due_review :=
  ⟨null_next_review_never_due.1 [demoNull] 2 0 5 demoNull rfl,
   null_next_review_never_due.2.1 [] 2 0 demoNull rfl⟩

end LearningEngine
